import Mathlib

/-!
Verification of the Windows secrets-backend execution core of the
datadog-agent repository: command-line construction and escaping
(makeCmdLine, syscall.EscapeArg), Windows command-line parsing
(modelled after the documented Windows conventions, as in the os
package commandLineToArgv), the bounded output buffer, the registry
credential source, the stdin broken-pipe policy, and the execCommand
controller with its error classification and handle bookkeeping.

Strings from the Go source are modelled as lists of characters, byte
payloads as lists of naturals, and OS nondeterminism (pipe failures,
registry contents, the wait outcome, the deadline state, goroutine
results) as explicit environment records.
-/

namespace DatadogSecrets

/-! ## Command-line escaping (syscall.EscapeArg as used by makeCmdLine) -/

/-- True when the argument contains a space or a tab (the condition under
which EscapeArg wraps the argument in double quotes). -/
def hasSpace (s : List Char) : Bool :=
  s.any (fun c => c == ' ' || c == '\t')

/-- True when the argument contains a double quote or a backslash (the
condition under which EscapeArg rewrites characters). -/
def needsBackslash (s : List Char) : Bool :=
  s.any (fun c => c == '"' || c == '\\')

/-- Body of the EscapeArg transformation loop: doubles every backslash run
immediately followed by a double quote and escapes the quote itself; when
the argument is being wrapped in quotes (hasSp), the trailing backslash run
is doubled and a closing quote appended. The slashes argument counts the
backslash run already emitted just before the current position. -/
def escBody (hasSp : Bool) : List Char → Nat → List Char
  | [], slashes => if hasSp then List.replicate slashes '\\' ++ ['"'] else []
  | c :: rest, slashes =>
    if c = '\\' then c :: escBody hasSp rest (slashes + 1)
    else if c = '"' then List.replicate (slashes + 1) '\\' ++ c :: escBody hasSp rest 0
    else c :: escBody hasSp rest 0

/-- EscapeArg: Go syscall.EscapeArg. An empty argument becomes a pair of
double quotes; an argument without special characters is returned verbatim;
otherwise backslash/quote sequences are rewritten and the argument is
wrapped in quotes exactly when it contains a space or tab. -/
def EscapeArg (s : List Char) : List Char :=
  if s = [] then ['"', '"']
  else if ¬needsBackslash s ∧ ¬hasSpace s then s
  else if ¬needsBackslash s then '"' :: s ++ ['"']
  else if hasSpace s then '"' :: escBody true s 0
  else escBody false s 0

/-- makeCmdLine from the source: appends a space and the escaped argument
for each element of args onto the command string, which itself is taken
verbatim. -/
def makeCmdLine (cmd : List Char) (args : List (List Char)) : List Char :=
  args.foldl (fun acc v => acc ++ ' ' :: EscapeArg v) cmd

/-- The suffix makeCmdLine appends after the command path: for every
argument a single space followed by its escaped form. -/
def argsSuffix : List (List Char) → List Char
  | [] => []
  | v :: rest => ' ' :: (EscapeArg v ++ argsSuffix rest)

theorem makeCmdLine_eq_suffix (cmd : List Char) (args : List (List Char)) :
    makeCmdLine cmd args = cmd ++ argsSuffix args := by
  induction args generalizing cmd with
  | nil => simp [makeCmdLine, argsSuffix]
  | cons v rest ih =>
    simp only [makeCmdLine, List.foldl_cons] at *
    rw [ih (cmd ++ ' ' :: EscapeArg v)]
    simp [argsSuffix]

/-! ## Windows command-line parsing

Modelled from the documented Windows command-line conventions that
CreateProcess-spawned programs use to split the flat command line back
into an argument vector (the rules mirrored by the Go os package
commandLineToArgv helper): backslashes are literal unless they precede a
double quote, in which case each pair yields one backslash and an unpaired
backslash escapes the quote; an unescaped quote toggles quoted mode; in
quoted mode a doubled quote emits a literal quote; space and tab separate
arguments only outside quoted mode. -/

/-- readNextArg: consumes one argument from the command line. inq is the
in-quotes flag, ns the count of pending backslashes, b the bytes of the
argument produced so far. Returns the finished argument and the remainder
of the command line. -/
def parseArg : List Char → Bool → Nat → List Char → List Char × List Char
  | [], _, ns, b => (b ++ List.replicate ns '\\', [])
  | c :: rest, inq, ns, b =>
    if c = ' ' ∨ c = '\t' then
      if inq then parseArg rest inq 0 (b ++ List.replicate ns '\\' ++ [c])
      else (b ++ List.replicate ns '\\', rest)
    else if c = '"' then
      if ns % 2 = 0 then
        match inq, rest with
        | true, '"' :: rest2 => parseArg rest2 false 0 (b ++ List.replicate (ns / 2) '\\' ++ ['"'])
        | true, rest => parseArg rest false 0 (b ++ List.replicate (ns / 2) '\\')
        | false, rest => parseArg rest true 0 (b ++ List.replicate (ns / 2) '\\')
      else parseArg rest inq 0 (b ++ List.replicate (ns / 2) '\\' ++ ['"'])
    else if c = '\\' then parseArg rest inq (ns + 1) b
    else parseArg rest inq 0 (b ++ List.replicate ns '\\' ++ [c])

example : parseArg [' '] false 0 [] = ([], []) := by decide
example : parseArg ['a', 'b'] false 0 [] = (['a', 'b'], []) := by decide
example : parseArg ['"', 'a', ' ', 'b', '"', ' ', 'c'] false 0 [] = (['a', ' ', 'b'], ['c']) := by
  decide
example : parseArg ['a', '\\', '"', 'b'] false 0 [] = (['a', '"', 'b'], []) := by decide

/-! ### Single-step unfolding lemmas for parseArg -/

theorem parseArg_backslash (rest : List Char) (inq : Bool) (ns : Nat) (b : List Char) :
    parseArg ('\\' :: rest) inq ns b = parseArg rest inq (ns + 1) b := by
  rw [parseArg.eq_def]; simp

theorem parseArg_space_out (rest : List Char) (ns : Nat) (b : List Char) :
    parseArg (' ' :: rest) false ns b = (b ++ List.replicate ns '\\', rest) := by
  rw [parseArg.eq_def]; simp

theorem parseArg_space_in (c : Char) (rest : List Char) (ns : Nat) (b : List Char)
    (h1 : c = ' ' ∨ c = '\t') :
    parseArg (c :: rest) true ns b = parseArg rest true 0 (b ++ List.replicate ns '\\' ++ [c]) := by
  rcases h1 with h | h <;> subst h <;> (rw [parseArg.eq_def]; simp)

theorem parseArg_quote_odd (rest : List Char) (inq : Bool) (ns : Nat) (b : List Char)
    (h : ns % 2 = 1) :
    parseArg ('"' :: rest) inq ns b =
      parseArg rest inq 0 (b ++ List.replicate (ns / 2) '\\' ++ ['"']) := by
  rw [parseArg.eq_def]; simp [h]

theorem parseArg_quote_even_open (rest : List Char) (ns : Nat) (b : List Char)
    (h : ns % 2 = 0) :
    parseArg ('"' :: rest) false ns b = parseArg rest true 0 (b ++ List.replicate (ns / 2) '\\') := by
  rw [parseArg.eq_def]; simp [h]

theorem parseArg_quote_even_sep (rest : List Char) (ns : Nat) (b : List Char)
    (h : ns % 2 = 0) (hrest : rest = [] ∨ ∃ t2, rest = ' ' :: t2) :
    parseArg ('"' :: rest) true ns b = parseArg rest false 0 (b ++ List.replicate (ns / 2) '\\') := by
  rcases hrest with h2 | ⟨t2, h2⟩ <;> subst h2 <;> (rw [parseArg.eq_def]; simp [h])

theorem parseArg_other (c : Char) (rest : List Char) (inq : Bool) (ns : Nat) (b : List Char)
    (h1 : ¬(c = ' ' ∨ c = '\t')) (h2 : c ≠ '"') (h3 : c ≠ '\\') :
    parseArg (c :: rest) inq ns b = parseArg rest inq 0 (b ++ List.replicate ns '\\' ++ [c]) := by
  rw [parseArg.eq_def]; simp [h1, h2, h3]

theorem parseArg_sep_out (c : Char) (rest : List Char) (ns : Nat) (b : List Char)
    (h1 : c = ' ' ∨ c = '\t') :
    parseArg (c :: rest) false ns b = (b ++ List.replicate ns '\\', rest) := by
  rcases h1 with h | h <;> subst h <;> (rw [parseArg.eq_def]; simp)

theorem parseArg_quote_double (rest2 : List Char) (ns : Nat) (b : List Char) (h : ns % 2 = 0) :
    parseArg ('"' :: '"' :: rest2) true ns b =
      parseArg rest2 false 0 (b ++ List.replicate (ns / 2) '\\' ++ ['"']) := by
  rw [parseArg.eq_def]; simp [h]

theorem parseArg_quote_even_close (c2 : Char) (rest2 : List Char) (ns : Nat) (b : List Char)
    (h : ns % 2 = 0) (hc2 : c2 ≠ '"') :
    parseArg ('"' :: c2 :: rest2) true ns b =
      parseArg (c2 :: rest2) false 0 (b ++ List.replicate (ns / 2) '\\') := by
  rw [parseArg.eq_def]
  simp [h]
  split
  · rename_i heq hno
    injection hno with h1 h2
    exact absurd h1 hc2
  · rfl
  · rename_i heq
    exact Bool.noConfusion heq

theorem parseArg_replicate (k : Nat) (l : List Char) (inq : Bool) (ns : Nat) (b : List Char) :
    parseArg (List.replicate k '\\' ++ l) inq ns b = parseArg l inq (ns + k) b := by
  induction k generalizing ns with
  | zero => simp
  | succ k ih =>
    rw [List.replicate_succ, List.cons_append, parseArg_backslash, ih (ns + 1)]
    congr 1
    omega

/-! ### Parsing an escaped argument -/

theorem escBody_other (hasSp : Bool) (c : Char) (s : List Char) (k : Nat)
    (h1 : c ≠ '\\') (h2 : c ≠ '"') :
    escBody hasSp (c :: s) k = c :: escBody hasSp s 0 := by
  simp [escBody, h1, h2]

/-- Parsing the quoted escape body: consuming escBody true s k from inside
the quotes with k pending backslashes recovers exactly s and leaves the
parser just past the closing quote, provided what follows is an argument
separator (a space) or the end of the command line. -/
theorem parseArg_escBody_quoted (s : List Char) :
    ∀ (k : Nat) (b t : List Char), (t = [] ∨ ∃ t2, t = ' ' :: t2) →
    parseArg (escBody true s k ++ t) true k b =
      parseArg t false 0 (b ++ List.replicate k '\\' ++ s) := by
  induction s with
  | nil =>
    intro k b t ht
    show parseArg ((List.replicate k '\\' ++ ['"']) ++ t) true k b = _
    rw [List.append_assoc, parseArg_replicate, List.singleton_append,
      parseArg_quote_even_sep t (k + k) b (by omega) ht]
    have h2 : (k + k) / 2 = k := by omega
    rw [h2]
    simp
  | cons c s ih =>
    intro k b t ht
    by_cases hbs : c = '\\'
    · subst hbs
      show parseArg (('\\' :: escBody true s (k + 1)) ++ t) true k b = _
      rw [List.cons_append, parseArg_backslash, ih (k + 1) b t ht]
      congr 1
      simp only [List.replicate_succ', List.append_assoc, List.singleton_append]
    · by_cases hq : c = '"'
      · subst hq
        show parseArg ((List.replicate (k + 1) '\\' ++ '"' :: escBody true s 0) ++ t) true k b = _
        rw [List.append_assoc, parseArg_replicate, List.cons_append,
          parseArg_quote_odd _ _ _ _ (by omega : (k + (k + 1)) % 2 = 1)]
        have h2 : (k + (k + 1)) / 2 = k := by omega
        rw [h2, ih 0 _ t ht]
        congr 1
        simp
      · rw [escBody_other true c s k hbs hq, List.cons_append]
        by_cases hsp : c = ' ' ∨ c = '\t'
        · rw [parseArg_space_in c _ k b hsp, ih 0 _ t ht]
          congr 1
          simp
        · rw [parseArg_other c _ true k b hsp hq hbs, ih 0 _ t ht]
          congr 1
          simp

/-- Parsing the unquoted escape body: when the argument contains no space
or tab, its escaped form is parsed outside quotes and yields exactly the
original argument, stopping at the separating space (or the end). -/
theorem parseArg_escBody_unquoted (s : List Char) (hs : hasSpace s = false) :
    ∀ (k : Nat) (b t : List Char), (t = [] ∨ ∃ t2, t = ' ' :: t2) →
    parseArg (escBody false s k ++ t) false k b =
      (b ++ List.replicate k '\\' ++ s, t.tail) := by
  induction s with
  | nil =>
    intro k b t ht
    show parseArg (([] : List Char) ++ t) false k b = _
    rw [List.nil_append]
    rcases ht with h2 | ⟨t2, h2⟩ <;> subst h2
    · rw [parseArg.eq_def]
      simp
    · rw [parseArg_space_out]
      simp
  | cons c s ih =>
    intro k b t ht
    have hc : ¬(c = ' ' ∨ c = '\t') := by
      intro h
      simp only [hasSpace, List.any_cons, Bool.or_eq_false_iff] at hs
      rcases h with h | h <;> subst h <;> simp at hs
    have hs2 : hasSpace s = false := by
      simp only [hasSpace, List.any_cons, Bool.or_eq_false_iff] at hs
      exact hs.2
    by_cases hbs : c = '\\'
    · subst hbs
      show parseArg (('\\' :: escBody false s (k + 1)) ++ t) false k b = _
      rw [List.cons_append, parseArg_backslash, ih hs2 (k + 1) b t ht]
      simp only [List.replicate_succ', List.append_assoc, List.singleton_append]
    · by_cases hq : c = '"'
      · subst hq
        show parseArg ((List.replicate (k + 1) '\\' ++ '"' :: escBody false s 0) ++ t) false k b = _
        rw [List.append_assoc, parseArg_replicate, List.cons_append,
          parseArg_quote_odd _ _ _ _ (by omega : (k + (k + 1)) % 2 = 1)]
        have h2 : (k + (k + 1)) / 2 = k := by omega
        rw [h2, ih hs2 0 _ t ht]
        simp
      · rw [escBody_other false c s k hbs hq, List.cons_append,
          parseArg_other c _ false k b hc hq hbs, ih hs2 0 _ t ht]
        simp

theorem escBody_no_special (s : List Char) (h : needsBackslash s = false) :
    escBody true s 0 = s ++ ['"'] := by
  induction s with
  | nil => simp [escBody]
  | cons c s ih =>
    simp only [needsBackslash, List.any_cons, Bool.or_eq_false_iff] at h
    obtain ⟨hc, hs⟩ := h
    simp only [Bool.or_eq_false_iff, beq_eq_false_iff_ne, ne_eq] at hc
    rw [escBody_other true c s 0 hc.2 hc.1, ih hs, List.cons_append]

theorem escBody_id (s : List Char) (h : ∀ c ∈ s, c ≠ '"') : ∀ (k : Nat),
    escBody false s k = s := by
  induction s with
  | nil => intro k; simp [escBody]
  | cons c s ih =>
    intro k
    have hq : c ≠ '"' := h c (by simp)
    have hs : ∀ x ∈ s, x ≠ '"' := fun x hx => h x (by simp [hx])
    by_cases hbs : c = '\\'
    · subst hbs
      show ('\\' : Char) :: escBody false s (k + 1) = '\\' :: s
      rw [ih hs (k + 1)]
    · rw [escBody_other false c s k hbs hq, ih hs 0]

theorem no_quote_of_no_backslash (s : List Char) (h : needsBackslash s = false) :
    ∀ c ∈ s, c ≠ '"' := by
  intro c hc
  simp only [needsBackslash, List.any_eq_false] at h
  have := h c hc
  simp only [Bool.or_eq_true, beq_iff_eq, not_or] at this
  exact this.1

theorem EscapeArg_eq_quoted (s : List Char) (h : s = [] ∨ hasSpace s = true) :
    EscapeArg s = '"' :: escBody true s 0 := by
  rcases h with h | h
  · subst h; simp [EscapeArg, escBody]
  · have hne : s ≠ [] := by
      intro he; subst he; simp [hasSpace] at h
    rw [EscapeArg, if_neg hne]
    by_cases hnb : needsBackslash s
    · simp [hnb, h]
    · simp only [hnb, h]
      rw [escBody_no_special s (by simpa using hnb)]
      simp

theorem EscapeArg_eq_unquoted (s : List Char) (h1 : s ≠ []) (h2 : hasSpace s = false) :
    EscapeArg s = escBody false s 0 := by
  rw [EscapeArg, if_neg h1]
  by_cases hnb : needsBackslash s
  · simp [hnb, h2]
  · simp only [hnb, h2]
    rw [escBody_id s (no_quote_of_no_backslash s (by simpa using hnb)) 0]
    simp

/-- Parsing one escaped argument from the front of the remaining command
line recovers exactly the original argument and stops at the separator. -/
theorem parseArg_EscapeArg (s b t : List Char) (ht : t = [] ∨ ∃ t2, t = ' ' :: t2) :
    parseArg (EscapeArg s ++ t) false 0 b = (b ++ s, t.tail) := by
  by_cases hq : s = [] ∨ hasSpace s = true
  · rw [EscapeArg_eq_quoted s hq, List.cons_append,
      parseArg_quote_even_open _ 0 b (by omega),
      parseArg_escBody_quoted s 0 _ t ht]
    rcases ht with h2 | ⟨t2, h2⟩ <;> subst h2
    · rw [parseArg.eq_def]; simp
    · rw [parseArg_space_out]; simp
  · push_neg at hq
    obtain ⟨h1, h2⟩ := hq
    have h2 : hasSpace s = false := by simpa using h2
    rw [EscapeArg_eq_unquoted s h1 h2, parseArg_escBody_unquoted s h2 0 b t ht]
    simp

/-! ### The command-line splitter -/

theorem parseArg_rest_aux : ∀ (n : Nat) (l : List Char), l.length ≤ n →
    ∀ (inq : Bool) (ns : Nat) (b : List Char),
    (parseArg l inq ns b).2.length + 1 ≤ l.length ∨ (parseArg l inq ns b).2 = [] := by
  intro n
  induction n with
  | zero =>
    intro l hl inq ns b
    have hnil : l = [] := by cases l with | nil => rfl | cons c r => simp at hl
    subst hnil
    right
    rfl
  | succ n ih =>
    intro l hl inq ns b
    cases l with
    | nil => right; rfl
    | cons c rest =>
      have hr : rest.length ≤ n := by simp at hl; omega
      by_cases hsp : c = ' ' ∨ c = '\t'
      · cases inq with
        | true =>
          rw [parseArg_space_in c rest ns b hsp]
          rcases ih rest hr true 0 (b ++ List.replicate ns '\\' ++ [c]) with h2 | h2
          · left; simp only [List.length_cons]; omega
          · right; exact h2
        | false =>
          rw [parseArg_sep_out c rest ns b hsp]
          left; simp
      · by_cases hq : c = '"'
        · subst hq
          by_cases hmod : ns % 2 = 0
          · cases inq with
            | false =>
              rw [parseArg_quote_even_open rest ns b hmod]
              rcases ih rest hr true 0 (b ++ List.replicate (ns / 2) '\\') with h2 | h2
              · left; simp only [List.length_cons]; omega
              · right; exact h2
            | true =>
              cases rest with
              | nil =>
                rw [parseArg_quote_even_sep [] ns b hmod (Or.inl rfl)]
                right
                rfl
              | cons c2 rest2 =>
                by_cases hc2 : c2 = '"'
                · subst hc2
                  rw [parseArg_quote_double rest2 ns b hmod]
                  have hr2 : rest2.length ≤ n := by simp at hl; omega
                  rcases ih rest2 hr2 false 0
                      (b ++ List.replicate (ns / 2) '\\' ++ ['"']) with h2 | h2
                  · left; simp only [List.length_cons]; omega
                  · right; exact h2
                · rw [parseArg_quote_even_close c2 rest2 ns b hmod hc2]
                  have hr2 : (c2 :: rest2).length ≤ n := by simpa using hr
                  rcases ih (c2 :: rest2) hr2 false 0
                      (b ++ List.replicate (ns / 2) '\\') with h2 | h2
                  · left; simp only [List.length_cons] at h2 ⊢; omega
                  · right; exact h2
          · have hmod2 : ns % 2 = 1 := by omega
            rw [parseArg_quote_odd rest inq ns b hmod2]
            rcases ih rest hr inq 0
                (b ++ List.replicate (ns / 2) '\\' ++ ['"']) with h2 | h2
            · left; simp only [List.length_cons]; omega
            · right; exact h2
        · by_cases hbs : c = '\\'
          · subst hbs
            rw [parseArg_backslash rest inq ns b]
            rcases ih rest hr inq (ns + 1) b with h2 | h2
            · left; simp only [List.length_cons]; omega
            · right; exact h2
          · rw [parseArg_other c rest inq ns b hsp hq hbs]
            rcases ih rest hr inq 0 (b ++ List.replicate ns '\\' ++ [c]) with h2 | h2
            · left; simp only [List.length_cons]; omega
            · right; exact h2

theorem parseArg_rest_lt (c : Char) (rest : List Char) (inq : Bool) (ns : Nat) (b : List Char) :
    (parseArg (c :: rest) inq ns b).2.length < (c :: rest).length := by
  rcases parseArg_rest_aux (c :: rest).length (c :: rest) le_rfl inq ns b with h | h
  · omega
  · rw [h]; simp

/-- commandLineToArgv: splits a full command line into the argument vector,
skipping separators between arguments (the loop of the os package helper
mirroring the Windows conventions). -/
def commandLineToArgv (cmd : List Char) : List (List Char) :=
  match cmd with
  | [] => []
  | c :: rest =>
    if c = ' ' ∨ c = '\t' then commandLineToArgv rest
    else (parseArg (c :: rest) false 0 []).1 ::
      commandLineToArgv ((parseArg (c :: rest) false 0 []).2)
termination_by cmd.length
decreasing_by
  · simp only [List.length_cons]; omega
  · exact parseArg_rest_lt c rest false 0 []

theorem commandLineToArgv_nil : commandLineToArgv [] = [] := by
  rw [commandLineToArgv]

theorem commandLineToArgv_sep (c : Char) (rest : List Char) (h : c = ' ' ∨ c = '\t') :
    commandLineToArgv (c :: rest) = commandLineToArgv rest := by
  rw [commandLineToArgv, if_pos h]

theorem commandLineToArgv_arg (c : Char) (rest : List Char) (h : ¬(c = ' ' ∨ c = '\t')) :
    commandLineToArgv (c :: rest) =
      (parseArg (c :: rest) false 0 []).1 ::
        commandLineToArgv ((parseArg (c :: rest) false 0 []).2) := by
  rw [commandLineToArgv, if_neg h]

/-! ### Round-trip of makeCmdLine through the Windows splitter -/

theorem EscapeArg_head (s : List Char) :
    ∃ c cs, EscapeArg s = c :: cs ∧ ¬(c = ' ' ∨ c = '\t') := by
  by_cases hq : s = [] ∨ hasSpace s = true
  · exact ⟨'"', escBody true s 0, EscapeArg_eq_quoted s hq, by decide⟩
  · push_neg at hq
    obtain ⟨h1, h2⟩ := hq
    have h2 : hasSpace s = false := by simpa using h2
    rw [EscapeArg_eq_unquoted s h1 h2]
    cases s with
    | nil => exact absurd rfl h1
    | cons c s =>
      have hc : ¬(c = ' ' ∨ c = '\t') := by
        intro hor
        simp only [hasSpace, List.any_cons, Bool.or_eq_false_iff] at h2
        rcases hor with h | h <;> subst h <;> simp at h2
      by_cases hbs : c = '\\'
      · subst hbs
        exact ⟨'\\', escBody false s 1, rfl, by decide⟩
      · by_cases hqq : c = '"'
        · subst hqq
          refine ⟨'\\', '"' :: escBody false s 0, ?_, by decide⟩
          show escBody false ('"' :: s) 0 = _
          simp [escBody]
        · rw [escBody_other false c s 0 hbs hqq]
          exact ⟨c, escBody false s 0, rfl, hc⟩

theorem argsSuffix_sep (args : List (List Char)) :
    argsSuffix args = [] ∨ ∃ t2, argsSuffix args = ' ' :: t2 := by
  cases args with
  | nil => exact Or.inl rfl
  | cons v rest => exact Or.inr ⟨EscapeArg v ++ argsSuffix rest, rfl⟩

/-- Parsing the remainder of the command line after the command path:
each escaped argument is recovered exactly, in order. -/
theorem argv_escape_chain (rest : List (List Char)) : ∀ (v : List Char),
    commandLineToArgv (EscapeArg v ++ argsSuffix rest) = v :: rest := by
  induction rest with
  | nil =>
    intro v
    obtain ⟨c, cs, he, hc⟩ := EscapeArg_head v
    have hform : EscapeArg v ++ argsSuffix [] = c :: (cs ++ argsSuffix []) := by
      rw [he]; simp
    rw [hform, commandLineToArgv_arg c _ hc, ← List.cons_append, ← he,
      parseArg_EscapeArg v [] _ (argsSuffix_sep [])]
    show v :: commandLineToArgv ((argsSuffix ([] : List (List Char))).tail) = [v]
    show v :: commandLineToArgv [] = [v]
    rw [commandLineToArgv_nil]
  | cons w rest ih =>
    intro v
    obtain ⟨c, cs, he, hc⟩ := EscapeArg_head v
    have hform : EscapeArg v ++ argsSuffix (w :: rest) = c :: (cs ++ argsSuffix (w :: rest)) := by
      rw [he]; simp
    rw [hform, commandLineToArgv_arg c _ hc, ← List.cons_append, ← he,
      parseArg_EscapeArg v [] _ (argsSuffix_sep (w :: rest))]
    show v :: commandLineToArgv ((argsSuffix (w :: rest)).tail) = v :: w :: rest
    show v :: commandLineToArgv (EscapeArg w ++ argsSuffix rest) = v :: w :: rest
    rw [ih w]

/-- A command path free of separators, quotes and backslashes, as used to
launch the secrets backend. -/
def plainCommand (cmd : List Char) : Prop :=
  ∀ c ∈ cmd, c ≠ ' ' ∧ c ≠ '\t' ∧ c ≠ '"' ∧ c ≠ '\\'

instance (cmd : List Char) : Decidable (plainCommand cmd) := by
  unfold plainCommand
  infer_instance

theorem makeCmdLine_roundtrip (cmd : List Char) (args : List (List Char))
    (h1 : cmd ≠ []) (h2 : plainCommand cmd) :
    commandLineToArgv (makeCmdLine cmd args) = cmd :: args := by
  rw [makeCmdLine_eq_suffix]
  cases cmd with
  | nil => exact absurd rfl h1
  | cons c cmd =>
    obtain ⟨hc1, hc2, hc3, hc4⟩ := h2 c (by simp)
    have hcs : ¬(c = ' ' ∨ c = '\t') := by
      intro h; rcases h with h | h <;> [exact hc1 h; exact hc2 h]
    have hnq : ∀ x ∈ c :: cmd, x ≠ '"' := fun x hx => (h2 x hx).2.2.1
    have hsp : hasSpace (c :: cmd) = false := by
      simp only [hasSpace, List.any_eq_false]
      intro x hx
      obtain ⟨hx1, hx2, _, _⟩ := h2 x hx
      simp [hx1, hx2]
    have key : parseArg ((c :: cmd) ++ argsSuffix args) false 0 [] =
        (c :: cmd, (argsSuffix args).tail) := by
      conv_lhs => rw [← escBody_id (c :: cmd) hnq 0]
      rw [parseArg_escBody_unquoted (c :: cmd) hsp 0 [] _ (argsSuffix_sep args)]
      simp
    rw [List.cons_append, commandLineToArgv_arg c _ hcs, ← List.cons_append, key]
    cases args with
    | nil =>
      show (c :: cmd) :: commandLineToArgv [] = [c :: cmd]
      rw [commandLineToArgv_nil]
    | cons v rest =>
      show (c :: cmd) :: commandLineToArgv (EscapeArg v ++ argsSuffix rest) = _
      rw [argv_escape_chain rest v]

/-! ## Bounded output buffer -/

/-- Flattening the sequence of chunks a relay copies into a sink. -/
def flattenChunks : List (List Nat) → List Nat
  | [] => []
  | c :: rest => c ++ flattenChunks rest

/-- limitBuffer: the bounded output buffer execCommand attaches to stdout
and stderr; data is the accumulated byte sequence and max the configured
secretBackendOutputMaxSize. -/
structure limitBuffer where
  data : List Nat
  max : Nat

/-- Modelled from the spec: the Write method of limitBuffer is not under
src (only its construction in execCommand is); per the specification,
"len(data) <= maxBytes at all times; bytes beyond the bound are never
stored" and output is "truncated deterministically to exactly the first
maxOutputBytes bytes", so a write appends at most the remaining capacity
and drops the excess. -/
def limitBuffer.write (b : limitBuffer) (p : List Nat) : limitBuffer :=
  { b with data := b.data ++ p.take (b.max - b.data.length) }

/-- Sequence of writes an output relay performs into the buffer. -/
def limitBuffer.writeAll (b : limitBuffer) (ps : List (List Nat)) : limitBuffer :=
  ps.foldl limitBuffer.write b

theorem limitBuffer_writeAll_take (max : Nat) : ∀ (chunks : List (List Nat)) (pre : List Nat),
    (limitBuffer.writeAll { data := pre.take max, max := max } chunks).data =
      (pre ++ flattenChunks chunks).take max := by
  intro chunks
  induction chunks with
  | nil => intro pre; simp [limitBuffer.writeAll, flattenChunks]
  | cons c rest ih =>
    intro pre
    show (limitBuffer.writeAll (limitBuffer.write { data := pre.take max, max := max } c) rest).data = _
    have hw : limitBuffer.write { data := pre.take max, max := max } c =
        { data := (pre ++ c).take max, max := max } := by
      simp only [limitBuffer.write, List.take_append_eq_append_take]
      congr 1
      congr 1
      simp [List.length_take]
      omega
    rw [hw, ih (pre ++ c)]
    simp [flattenChunks, List.append_assoc]

theorem limitBuffer_writeAll_length (max : Nat) (chunks : List (List Nat)) :
    (limitBuffer.writeAll { data := [], max := max } chunks).data.length ≤ max := by
  have h := limitBuffer_writeAll_take max chunks []
  simp only [List.take_nil, List.nil_append] at h
  rw [h]
  simp [List.length_take]

/-! ## Credential source (registry) -/

/-- Outcome of opening the registry key SOFTWARE Datadog Datadog Agent
secrets under HKEY LOCAL MACHINE: the key may not exist, may fail to open
for another reason, or opens onto a map from value names to string values
(a missing value name models a registry value that is absent). -/
inductive RegOpenResult
  | notExist
  | otherError
  | ok (vals : String → Option String)

/-- Error classes of the credential source: notFound is the message for a
password absent from the registry (the key does not exist), readOpen the
generic open failure, readValue the failure reading the password value. -/
inductive CredError
  | notFound
  | readOpen
  | readValue
deriving DecidableEq

/-- The user created at install time with low/no rights. -/
def username : String := "datadog_secretuser"

/-- getPasswordFromRegistry from the source: ErrNotExist on OpenKey maps to
the "password does not found" error, any other OpenKey failure to the
generic read error, and any GetStringValue failure (in particular an
absent value) to the "could not read password" error. -/
def getPasswordFromRegistry : RegOpenResult → Except CredError String
  | .notExist => .error .notFound
  | .otherError => .error .readOpen
  | .ok vals =>
    match vals username with
    | none => .error .readValue
    | some p => .ok p

/-! ## Privilege-bounded process launcher -/

/-- Error classes of startProcess, in the order the source can produce
them: UTF16 conversion of the command, UTF16 conversion of the command
line, DuplicateHandle failure, a credential-source error, failure of
CreateProcessWithLogonW, failure of FindProcess. -/
inductive StartError
  | encodingCmd
  | encodingCmdline
  | handleDup
  | cred (e : CredError)
  | createProcess
  | findProcess
deriving DecidableEq

/-- Environment of one startProcess call: which OS primitives succeed and
what the registry holds. -/
structure StartEnv where
  utf16CmdOk : Bool
  utf16CmdlineOk : Bool
  dupOk : Bool
  registry : RegOpenResult
  createOk : Bool
  findOk : Bool

/-- startProcess from the source: converts strings, duplicates handles,
fetches the password from the registry, calls CreateProcessWithLogonW and
FindProcess, failing at the first step whose primitive fails. -/
def startProcess (env : StartEnv) : Except StartError Unit :=
  if ¬env.utf16CmdOk then .error .encodingCmd
  else if ¬env.utf16CmdlineOk then .error .encodingCmdline
  else if ¬env.dupOk then .error .handleDup
  else
    match getPasswordFromRegistry env.registry with
    | .error e => .error (.cred e)
    | .ok _ =>
      if ¬env.createOk then .error .createProcess
      else if ¬env.findOk then .error .findProcess
      else .ok ()

/-- Whether the CreateProcessWithLogonW call succeeded, i.e. a child
process came into existence during startProcess: all steps up to and
including process creation must succeed. -/
def startCreatesProcess (env : StartEnv) : Bool :=
  env.utf16CmdOk && env.utf16CmdlineOk && env.dupOk &&
    (match getPasswordFromRegistry env.registry with
      | .ok _ => true
      | .error _ => false) &&
    env.createOk

/-! ## Pipe relay: stdin copy error policy -/

/-- PathError: the os.PathError shape the stdin copy produces on a failed
write, with the OS error number in errno. -/
structure PathError where
  op : String
  path : String
  errno : Nat
deriving DecidableEq

/-- Errors a relay goroutine can observe: a path error from a pipe
operation or any other error. -/
inductive OsError
  | pathErr (pe : PathError)
  | other (msg : String)
deriving DecidableEq

/-- Windows errno 0x6d, the broken-pipe error. -/
def ERROR_BROKEN_PIPE : Nat := 109

/-- Windows errno 0xe8, returned for a write to a pipe whose reader closed. -/
def ERROR_NO_DATA : Nat := 232

/-- skipStdinCopyError from the source: true exactly for a PathError whose
operation is a write on the process stdin pipe (path pipe-1) with errno
ERROR_BROKEN_PIPE or ERROR_NO_DATA. -/
def skipStdinCopyError : Option OsError → Bool
  | some (.pathErr pe) =>
    pe.op == "write" && pe.path == "|1" &&
      (pe.errno == ERROR_BROKEN_PIPE || pe.errno == ERROR_NO_DATA)
  | _ => false

/-- The error the stdin relay goroutine installed by setInputPipe reports:
the copy error is discarded when skipStdinCopyError accepts it, and the
error from closing the write end takes over only when no copy error
remains. -/
def stdinCopyGoroutine (copyErr closeErr : Option OsError) : Option OsError :=
  let err := if skipStdinCopyError copyErr then none else copyErr
  match err with
  | none => closeErr
  | some e => some e

/-! ## Execution controller -/

/-- Error classification of execCommand, one constructor per return site:
pipe creation failure, a startProcess error, the command-timeout message,
the generic wait error message, and the exited-with-failure-status
message. -/
inductive ExecError
  | pipeCreation
  | start (e : StartError)
  | timeout
  | processWait
  | nonZeroExit
deriving DecidableEq

/-- Environment of one execCommand invocation: which pipe creations
succeed, the startProcess environment, whether process.Wait returned an
error, whether the context deadline had expired when the result was
classified, whether the exit status was a success, the goroutine results
in collection order, the chunks the command wrote to stdout, and the
output bound. -/
structure ExecEnv where
  pipeInOk : Bool
  pipeOutOk : Bool
  pipeErrOk : Bool
  start : StartEnv
  waitErr : Bool
  deadlineExceeded : Bool
  stateSuccess : Bool
  copyResults : List (Option OsError)
  stdoutChunks : List (List Nat)
  maxOutputBytes : Nat

/-- Result of one execCommand invocation: the returned byte slice (none is
the nil slice), the returned error, the pipe handles created and the pipe
handles closed before returning (handles are numbered in creation order:
stdin read 0, stdin write 1, stdout read 2, stdout write 3, stderr read 4,
stderr write 5), whether a child process was ever created, and the
retained copyError. -/
structure ExecResult where
  output : Option (List Nat)
  error : Option ExecError
  createdHandles : List Nat
  closedHandles : List Nat
  processCreated : Bool
  copyError : Option OsError

/-- The closeAfterStart list built by setInputPipe and the two
setOutputPipe calls: stdin read end, stdout write end, stderr write end. -/
def closeAfterStart : List Nat := [0, 3, 5]

/-- The closeAfterWait list: stdin write end, stdout read end, stderr read
end. -/
def closeAfterWait : List Nat := [1, 2, 4]

/-- The copyError retention loop of execCommand: the first non-nil
goroutine result in collection order is kept, later ones are drained and
dropped. -/
def firstCopyError : List (Option OsError) → Option OsError
  | [] => none
  | none :: rest => firstCopyError rest
  | some e :: _ => some e

/-- execCommand from the source. Pipe creation failures return
immediately without closing anything; a startProcess failure closes both
close lists; after a successful start the wait outcome and the context
state classify the result, and the stdout limitBuffer contents are
returned exactly when the wait succeeded with a success status. -/
def execCommand (env : ExecEnv) : ExecResult :=
  if ¬env.pipeInOk then
    { output := none, error := some .pipeCreation, createdHandles := [],
      closedHandles := [], processCreated := false, copyError := none }
  else if ¬env.pipeOutOk then
    { output := none, error := some .pipeCreation, createdHandles := [0, 1],
      closedHandles := [], processCreated := false, copyError := none }
  else if ¬env.pipeErrOk then
    { output := none, error := some .pipeCreation, createdHandles := [0, 1, 2, 3],
      closedHandles := [], processCreated := false, copyError := none }
  else
    match startProcess env.start with
    | .error e =>
      { output := none, error := some (.start e),
        createdHandles := [0, 1, 2, 3, 4, 5],
        closedHandles := closeAfterStart ++ closeAfterWait,
        processCreated := startCreatesProcess env.start,
        copyError := none }
    | .ok _ =>
      let stdoutBuf := limitBuffer.writeAll
        { data := [], max := env.maxOutputBytes } env.stdoutChunks
      let err : Option ExecError :=
        if env.waitErr then
          if env.deadlineExceeded then some .timeout else some .processWait
        else if ¬env.stateSuccess then some .nonZeroExit
        else none
      { output := match err with | none => some stdoutBuf.data | some _ => none,
        error := err,
        createdHandles := [0, 1, 2, 3, 4, 5],
        closedHandles := closeAfterStart ++ closeAfterWait,
        processCreated := true,
        copyError := firstCopyError env.copyResults }

/-! ## Concrete environments for witnesses and counterexamples -/

/-- A start environment in which every OS primitive succeeds and the
registry holds a password for the secrets user. -/
def okStart : StartEnv :=
  { utf16CmdOk := true, utf16CmdlineOk := true, dupOk := true,
    registry := .ok (fun _ => some "s3cr3t"), createOk := true, findOk := true }

/-- An execution environment in which everything succeeds: pipes are
created, the process starts, waits without error and exits successfully. -/
def baseEnv : ExecEnv :=
  { pipeInOk := true, pipeOutOk := true, pipeErrOk := true, start := okStart,
    waitErr := false, deadlineExceeded := false, stateSuccess := true,
    copyResults := [none, none, none], stdoutChunks := [[10, 20]],
    maxOutputBytes := 16 }

/-! ## Claims -/

/-- Claim C1, counterexample: an invocation whose deadline has expired
(the watcher killed the process) but whose wait succeeds reporting a
failure exit status is classified as the exited-with-failure-status error,
not as the timeout error, refuting the claim that a timed-out invocation
always yields the timeout classification even when the wait outcome could
be read as a failure exit status. -/
theorem C1_counterexample :
    ({ baseEnv with stateSuccess := false, deadlineExceeded := true } : ExecEnv).deadlineExceeded
        = true ∧
    (execCommand { baseEnv with stateSuccess := false, deadlineExceeded := true }).error
        = some ExecError.nonZeroExit ∧
    (execCommand { baseEnv with stateSuccess := false, deadlineExceeded := true }).error
        ≠ some ExecError.timeout := by
  refine ⟨rfl, rfl, by decide⟩

/-- Claim C1 (amended): timeout classification takes priority over the
generic wait error: when the wait returns an error and the context
deadline has expired, execCommand returns the timeout error and a nil
byte slice; but when the wait succeeds, the exit status governs the
classification even if the deadline fired (see the counterexample). -/
theorem C1_amended_timeout_priority (env : ExecEnv)
    (hpi : env.pipeInOk = true) (hpo : env.pipeOutOk = true) (hpe : env.pipeErrOk = true)
    (hs : startProcess env.start = Except.ok ())
    (hw : env.waitErr = true) (hd : env.deadlineExceeded = true) :
    (execCommand env).error = some ExecError.timeout ∧ (execCommand env).output = none := by
  simp [execCommand, hpi, hpo, hpe, hs, hw, hd]

theorem C1_amended_timeout_priority_witness :
    (execCommand { baseEnv with waitErr := true, deadlineExceeded := true }).error
        = some ExecError.timeout ∧
    (execCommand { baseEnv with waitErr := true, deadlineExceeded := true }).output = none :=
  C1_amended_timeout_priority { baseEnv with waitErr := true, deadlineExceeded := true }
    rfl rfl rfl rfl rfl rfl

/-- Claim C2: when every pipe is created, the process starts, the wait
returns no error, the exit status is a success and no relay reported an
error, execCommand returns a nil error together with exactly the bytes
the command wrote to stdout, truncated to maxOutputBytes. -/
theorem C2_success_returns_stdout (env : ExecEnv)
    (hpi : env.pipeInOk = true) (hpo : env.pipeOutOk = true) (hpe : env.pipeErrOk = true)
    (hs : startProcess env.start = Except.ok ())
    (hw : env.waitErr = false) (hss : env.stateSuccess = true)
    (hcopy : env.copyResults = [none, none, none]) :
    (execCommand env).error = none ∧
    (execCommand env).output =
      some ((flattenChunks env.stdoutChunks).take env.maxOutputBytes) := by
  have hdata : (limitBuffer.writeAll
      { data := [], max := env.maxOutputBytes } env.stdoutChunks).data =
      (flattenChunks env.stdoutChunks).take env.maxOutputBytes := by
    have h := limitBuffer_writeAll_take env.maxOutputBytes env.stdoutChunks []
    simpa using h
  simp [execCommand, hpi, hpo, hpe, hs, hw, hss, hdata]

theorem C2_success_returns_stdout_witness :
    (execCommand baseEnv).error = none ∧
    (execCommand baseEnv).output =
      some ((flattenChunks baseEnv.stdoutChunks).take baseEnv.maxOutputBytes) :=
  C2_success_returns_stdout baseEnv rfl rfl rfl rfl rfl rfl rfl

/-- Claim C3, counterexample: when the stdout pipe creation fails after the
stdin pipe was already created, execCommand returns the pipe-creation
error with the stdin pipe handles (0 and 1) still open: the created-handle
list is nonempty while the closed-handle list is empty, refuting the claim
that every pre-start failure closes every already-created pipe handle. -/
theorem C3_counterexample :
    (execCommand { baseEnv with pipeOutOk := false }).error = some ExecError.pipeCreation ∧
    (execCommand { baseEnv with pipeOutOk := false }).processCreated = false ∧
    0 ∈ (execCommand { baseEnv with pipeOutOk := false }).createdHandles ∧
    (execCommand { baseEnv with pipeOutOk := false }).closedHandles = [] := by
  refine ⟨rfl, rfl, by decide, rfl⟩

/-- Claim C3 (amended): for failures at startProcess (handle duplication,
credential fetch, process creation, and the string conversions), after all
three pipes were created, execCommand returns the error having closed
every pipe handle it created, both the close-after-start and the
close-after-wait set; but a failure creating the second or third pipe
returns without closing the handles of the pipes already created. -/
theorem C3_amended_start_failure_closes_all (env : ExecEnv) (e : StartError)
    (hpi : env.pipeInOk = true) (hpo : env.pipeOutOk = true) (hpe : env.pipeErrOk = true)
    (hs : startProcess env.start = Except.error e) :
    (execCommand env).error = some (ExecError.start e) ∧
    (execCommand env).closedHandles = closeAfterStart ++ closeAfterWait ∧
    ∀ h ∈ (execCommand env).createdHandles, h ∈ (execCommand env).closedHandles := by
  refine ⟨?_, ?_, ?_⟩ <;> simp [execCommand, hpi, hpo, hpe, hs] <;> decide

theorem C3_amended_start_failure_closes_all_witness :
    (execCommand { baseEnv with start := { okStart with dupOk := false } }).error
        = some (ExecError.start StartError.handleDup) ∧
    (execCommand { baseEnv with start := { okStart with dupOk := false } }).closedHandles
        = closeAfterStart ++ closeAfterWait ∧
    ∀ h ∈ (execCommand { baseEnv with start := { okStart with dupOk := false } }).createdHandles,
      h ∈ (execCommand { baseEnv with start := { okStart with dupOk := false } }).closedHandles :=
  C3_amended_start_failure_closes_all
    { baseEnv with start := { okStart with dupOk := false } }
    StartError.handleDup rfl rfl rfl rfl

/-- Claim C4: the bounded output buffer never holds more than max bytes,
and when the chunks written to it total at least max bytes the captured
data is exactly the first max bytes written, never more and never fewer. -/
theorem C4_limitBuffer_bound (max : Nat) (chunks : List (List Nat)) :
    (limitBuffer.writeAll { data := [], max := max } chunks).data.length ≤ max ∧
    (max ≤ (flattenChunks chunks).length →
      (limitBuffer.writeAll { data := [], max := max } chunks).data =
        (flattenChunks chunks).take max ∧
      (limitBuffer.writeAll { data := [], max := max } chunks).data.length = max) := by
  have hd : (limitBuffer.writeAll { data := [], max := max } chunks).data =
      (flattenChunks chunks).take max := by
    have h := limitBuffer_writeAll_take max chunks []
    simpa using h
  refine ⟨limitBuffer_writeAll_length max chunks, fun h => ⟨hd, ?_⟩⟩
  rw [hd]
  simp [List.length_take]
  omega

theorem C4_limitBuffer_bound_witness :
    (limitBuffer.writeAll { data := [], max := 3 } [[1, 2], [3, 4]]).data.length ≤ 3 ∧
    (limitBuffer.writeAll { data := [], max := 3 } [[1, 2], [3, 4]]).data = [1, 2, 3] := by
  have h := C4_limitBuffer_bound 3 [[1, 2], [3, 4]]
  have h2 := h.2 (by decide)
  refine ⟨h.1, ?_⟩
  rw [h2.1]
  decide

/-- Claim C5: for every argument list, makeCmdLine escapes each argument
(including those containing whitespace, double quotes, or backslashes) so
that Windows command-line parsing of the resulting flat command string
yields back exactly the original argument strings in order, for any
command path free of separators, quotes and backslashes. -/
theorem C5_makeCmdLine_roundtrip (cmd : List Char) (args : List (List Char))
    (h1 : cmd ≠ []) (h2 : plainCommand cmd) :
    commandLineToArgv (makeCmdLine cmd args) = cmd :: args :=
  makeCmdLine_roundtrip cmd args h1 h2

theorem C5_makeCmdLine_roundtrip_witness :
    commandLineToArgv
        (makeCmdLine ['c', ':', 'x'] [['a', ' ', 'b'], ['"'], ['\\', 't'], [], ['\\']]) =
      [['c', ':', 'x'], ['a', ' ', 'b'], ['"'], ['\\', 't'], [], ['\\']] :=
  C5_makeCmdLine_roundtrip ['c', ':', 'x'] [['a', ' ', 'b'], ['"'], ['\\', 't'], [], ['\\']]
    (by decide) (by decide)

/-- Claim C6, counterexample: when the registry key exists but the
password value for the secrets user is absent, getPasswordFromRegistry
fails through the generic could-not-read branch (the read-error class,
CredError.readValue), not through the not-found branch, refuting the claim
that every absent credential entry yields the not-found classification;
no process is created either way. -/
theorem C6_counterexample :
    getPasswordFromRegistry (RegOpenResult.ok (fun _ => none)) =
      Except.error CredError.readValue ∧
    CredError.readValue ≠ CredError.notFound ∧
    (execCommand { baseEnv with start := { okStart with registry := .ok (fun _ => none) } }).error
      = some (ExecError.start (StartError.cred CredError.readValue)) ∧
    (execCommand { baseEnv with
        start := { okStart with registry := .ok (fun _ => none) } }).processCreated = false := by
  refine ⟨rfl, by decide, rfl, rfl⟩

/-- Claim C6 (amended): when the registry key holding the secrets-user
password does not exist, and the string conversions and handle
duplications succeed, execCommand fails with the credential not-found
classification (distinct from the generic read-error classes) and no
child process is ever created; when the key exists but the value is
absent, the failure is classified as a generic read error instead (see
the counterexample), still with no process created. -/
theorem C6_amended_key_absent_not_found (env : ExecEnv)
    (hpi : env.pipeInOk = true) (hpo : env.pipeOutOk = true) (hpe : env.pipeErrOk = true)
    (h1 : env.start.utf16CmdOk = true) (h2 : env.start.utf16CmdlineOk = true)
    (h3 : env.start.dupOk = true)
    (hreg : env.start.registry = RegOpenResult.notExist) :
    (execCommand env).error = some (ExecError.start (StartError.cred CredError.notFound)) ∧
    (execCommand env).processCreated = false := by
  have hs : startProcess env.start = Except.error (StartError.cred CredError.notFound) := by
    simp [startProcess, h1, h2, h3, hreg, getPasswordFromRegistry]
  simp [execCommand, hpi, hpo, hpe, hs, startCreatesProcess, hreg, getPasswordFromRegistry]

theorem C6_amended_key_absent_not_found_witness :
    (execCommand { baseEnv with start := { okStart with registry := .notExist } }).error
      = some (ExecError.start (StartError.cred CredError.notFound)) ∧
    (execCommand { baseEnv with
        start := { okStart with registry := .notExist } }).processCreated = false :=
  C6_amended_key_absent_not_found
    { baseEnv with start := { okStart with registry := .notExist } }
    rfl rfl rfl rfl rfl rfl rfl

/-- Claim C7: when the command exits with success status after closing its
stdin early, so the stdin copy fails with a broken-pipe-class PathError (a
write to the stdin pipe failing with ERROR_BROKEN_PIPE or ERROR_NO_DATA),
the stdin relay goroutine reports no error, the retained copyError stays
nil, and execCommand still returns success with the captured stdout. -/
theorem C7_stdin_broken_pipe_benign (env : ExecEnv) (pe : PathError)
    (hop : pe.op = "write") (hpath : pe.path = "|1")
    (herr : pe.errno = ERROR_BROKEN_PIPE ∨ pe.errno = ERROR_NO_DATA)
    (hpi : env.pipeInOk = true) (hpo : env.pipeOutOk = true) (hpe : env.pipeErrOk = true)
    (hs : startProcess env.start = Except.ok ())
    (hw : env.waitErr = false) (hss : env.stateSuccess = true)
    (hcopy : env.copyResults = [stdinCopyGoroutine (some (OsError.pathErr pe)) none, none, none]) :
    stdinCopyGoroutine (some (OsError.pathErr pe)) none = none ∧
    (execCommand env).error = none ∧
    (execCommand env).copyError = none ∧
    (execCommand env).output =
      some ((flattenChunks env.stdoutChunks).take env.maxOutputBytes) := by
  have hskip : skipStdinCopyError (some (OsError.pathErr pe)) = true := by
    rcases herr with h | h <;> simp [skipStdinCopyError, hop, hpath, h]
  have hgo : stdinCopyGoroutine (some (OsError.pathErr pe)) none = none := by
    simp [stdinCopyGoroutine, hskip]
  have hdata : (limitBuffer.writeAll
      { data := [], max := env.maxOutputBytes } env.stdoutChunks).data =
      (flattenChunks env.stdoutChunks).take env.maxOutputBytes := by
    have h := limitBuffer_writeAll_take env.maxOutputBytes env.stdoutChunks []
    simpa using h
  refine ⟨hgo, ?_, ?_, ?_⟩ <;>
    simp [execCommand, hpi, hpo, hpe, hs, hw, hss, hcopy, hgo, firstCopyError, hdata]

theorem C7_stdin_broken_pipe_benign_witness :
    stdinCopyGoroutine
        (some (OsError.pathErr { op := "write", path := "|1", errno := 109 })) none = none ∧
    (execCommand baseEnv).error = none ∧
    (execCommand baseEnv).copyError = none ∧
    (execCommand baseEnv).output =
      some ((flattenChunks baseEnv.stdoutChunks).take baseEnv.maxOutputBytes) :=
  C7_stdin_broken_pipe_benign baseEnv { op := "write", path := "|1", errno := 109 }
    rfl rfl (Or.inl rfl) rfl rfl rfl rfl rfl rfl (by decide)

/-- Claim C8: when the wait succeeds but the exit status is a failure,
execCommand returns the exited-with-failure-status error, a distinct
classification from the generic wait error, and the returned byte slice
is nil. -/
theorem C8_nonzero_exit_classification (env : ExecEnv)
    (hpi : env.pipeInOk = true) (hpo : env.pipeOutOk = true) (hpe : env.pipeErrOk = true)
    (hs : startProcess env.start = Except.ok ())
    (hw : env.waitErr = false) (hss : env.stateSuccess = false) :
    (execCommand env).error = some ExecError.nonZeroExit ∧
    (execCommand env).output = none ∧
    ExecError.nonZeroExit ≠ ExecError.processWait := by
  refine ⟨?_, ?_, by decide⟩ <;> simp [execCommand, hpi, hpo, hpe, hs, hw, hss]

theorem C8_nonzero_exit_classification_witness :
    (execCommand { baseEnv with stateSuccess := false }).error = some ExecError.nonZeroExit ∧
    (execCommand { baseEnv with stateSuccess := false }).output = none ∧
    ExecError.nonZeroExit ≠ ExecError.processWait :=
  C8_nonzero_exit_classification { baseEnv with stateSuccess := false } rfl rfl rfl rfl rfl rfl

/-- Claim C9: when the wait succeeds with a success exit status,
execCommand returns success with the stdout buffer contents regardless of
the relay results; the retained copyError is the first non-nil relay
error in collection order and never by itself fails the invocation. -/
theorem C9_copy_error_never_fails_success (env : ExecEnv)
    (hpi : env.pipeInOk = true) (hpo : env.pipeOutOk = true) (hpe : env.pipeErrOk = true)
    (hs : startProcess env.start = Except.ok ())
    (hw : env.waitErr = false) (hss : env.stateSuccess = true) :
    (execCommand env).error = none ∧
    (execCommand env).output =
      some ((flattenChunks env.stdoutChunks).take env.maxOutputBytes) ∧
    (execCommand env).copyError = firstCopyError env.copyResults := by
  have hdata : (limitBuffer.writeAll
      { data := [], max := env.maxOutputBytes } env.stdoutChunks).data =
      (flattenChunks env.stdoutChunks).take env.maxOutputBytes := by
    have h := limitBuffer_writeAll_take env.maxOutputBytes env.stdoutChunks []
    simpa using h
  refine ⟨?_, ?_, ?_⟩ <;> simp [execCommand, hpi, hpo, hpe, hs, hw, hss, hdata]

theorem C9_copy_error_never_fails_success_witness :
    (execCommand { baseEnv with
        copyResults := [some (OsError.other "copy failed"), none, none] }).error = none ∧
    (execCommand { baseEnv with
        copyResults := [some (OsError.other "copy failed"), none, none] }).output =
      some ((flattenChunks ({ baseEnv with
        copyResults := [some (OsError.other "copy failed"), none, none] } : ExecEnv).stdoutChunks).take
          ({ baseEnv with
            copyResults := [some (OsError.other "copy failed"), none, none] } : ExecEnv).maxOutputBytes) ∧
    (execCommand { baseEnv with
        copyResults := [some (OsError.other "copy failed"), none, none] }).copyError =
      firstCopyError ({ baseEnv with
        copyResults := [some (OsError.other "copy failed"), none, none] } : ExecEnv).copyResults :=
  C9_copy_error_never_fails_success
    { baseEnv with copyResults := [some (OsError.other "copy failed"), none, none] }
    rfl rfl rfl rfl rfl rfl

/-- Claim C10: the command line built for process creation is the command
path concatenated verbatim, with no escaping or quoting applied to it,
followed by the escaped arguments each prefixed by a single space; in
particular with no arguments the command line is exactly the command
path, whatever characters it contains. -/
theorem C10_makeCmdLine_structure (cmd : List Char) (args : List (List Char)) :
    makeCmdLine cmd args = cmd ++ argsSuffix args ∧
    makeCmdLine cmd [] = cmd := by
  refine ⟨makeCmdLine_eq_suffix cmd args, ?_⟩
  rw [makeCmdLine_eq_suffix cmd []]
  simp [argsSuffix]

end DatadogSecrets
